import Mathlib

/-!
Verification development for the tidesdb Rust binding crate.

The crate is a thin wrapper over the TidesDB C engine: `src/ffi.rs` declares
the C surface and its status-code constants, `src/error.rs` maps status codes
to the `Error` enum, and `src/tidesdb.rs` wraps each C call, checking the
returned status and marshalling byte buffers and C strings.

The embedding models the wrapper layer faithfully from the Rust source: each
wrapper operation is a function of the status code (and, where relevant, the
output buffer) produced by the underlying C call, so theorems quantify over
every behaviour the C layer can exhibit.  The Rust `panic!` branch of
`Error::from_code` is modelled as `Option.none` at the result type.  Byte
strings are `List Nat`; `CString::new`, which fails on an interior NUL byte,
is modelled by a `contains 0` test.  The engine semantics themselves (MVCC
visibility, write-set buffering, savepoints) are not part of the crate's
sources; where a claim depends on them they are modelled from the spec, and
each such definition is marked `Modelled from the spec:` in its doc comment.
-/

set_option autoImplicit false

/-- Status constant TDB_SUCCESS from src/ffi.rs. -/
def TDB_SUCCESS : Int := 0

/-- Status constant TDB_ERR_MEMORY from src/ffi.rs. -/
def TDB_ERR_MEMORY : Int := -1

/-- Status constant TDB_ERR_INVALID_ARGS from src/ffi.rs. -/
def TDB_ERR_INVALID_ARGS : Int := -2

/-- Status constant TDB_ERR_NOT_FOUND from src/ffi.rs. -/
def TDB_ERR_NOT_FOUND : Int := -3

/-- Status constant TDB_ERR_IO from src/ffi.rs. -/
def TDB_ERR_IO : Int := -4

/-- Status constant TDB_ERR_CORRUPTION from src/ffi.rs. -/
def TDB_ERR_CORRUPTION : Int := -5

/-- Status constant TDB_ERR_EXISTS from src/ffi.rs. -/
def TDB_ERR_EXISTS : Int := -6

/-- Status constant TDB_ERR_CONFLICT from src/ffi.rs. -/
def TDB_ERR_CONFLICT : Int := -7

/-- Status constant TDB_ERR_TOO_LARGE from src/ffi.rs. -/
def TDB_ERR_TOO_LARGE : Int := -8

/-- Status constant TDB_ERR_MEMORY_LIMIT from src/ffi.rs. -/
def TDB_ERR_MEMORY_LIMIT : Int := -9

/-- Status constant TDB_ERR_INVALID_DB from src/ffi.rs. -/
def TDB_ERR_INVALID_DB : Int := -10

/-- The `Error` enum of src/error.rs.  The payload of the Rust `Io` variant is
a fixed `std::io::Error` message, so it carries no information here; `Unknown`
keeps its status-code payload. -/
inductive Error where
  | Memory
  | InvalidArgs
  | NotFound
  | Io
  | Corruption
  | Exists
  | Conflict
  | TooLarge
  | MemoryLimit
  | InvalidDb
  | Unknown (code : Int)
  | InvalidUtf8
  | Nul
deriving DecidableEq, Repr

/-- Embedding of `Error::from_code` (src/error.rs lines 48-66).  The Rust
function panics on code 0 (`TDB_SUCCESS should not be converted to Error`);
the panic branch is modelled as `none`. -/
def Error.from_code (code : Int) : Option Error :=
  if code = 0 then none
  else if code = -1 then some .Memory
  else if code = -2 then some .InvalidArgs
  else if code = -3 then some .NotFound
  else if code = -4 then some .Io
  else if code = -5 then some .Corruption
  else if code = -6 then some .Exists
  else if code = -7 then some .Conflict
  else if code = -8 then some .TooLarge
  else if code = -9 then some .MemoryLimit
  else if code = -10 then some .InvalidDb
  else some (.Unknown code)

/-- The status-check pattern shared by every wrapper in src/tidesdb.rs:
`if result != TDB_SUCCESS { return Err(Error::from_code(result)); } Ok(())`.
The outer `Option` is `none` exactly when `from_code` would panic. -/
def check_status (status : Int) : Option (Except Error Unit) :=
  if status ≠ TDB_SUCCESS then (Error.from_code status).map Except.error
  else some (.ok ())

/-- The isolation levels of `tidesdb_isolation_level_t` (src/ffi.rs), also
surfaced as the associated constants of `IsolationLevel` in src/tidesdb.rs. -/
inductive IsolationLevel where
  | READ_UNCOMMITTED
  | READ_COMMITTED
  | REPEATABLE_READ
  | SNAPSHOT
  | SERIALIZABLE
deriving DecidableEq, Repr

/-- The compression algorithms of `compression_algorithm` (src/ffi.rs). -/
inductive CompressionAlgorithm where
  | NONE
  | SNAPPY
  | ZLIB
  | ZSTD
  | LZ4
deriving DecidableEq, Repr

/-- Embedding of `Database::open` (src/tidesdb.rs lines 111-120), as a
function of the status returned by `tidesdb_open`; `Unit` stands for the
database handle stored on success. -/
def Database.open_db (status : Int) : Option (Except Error Unit) :=
  check_status status

/-- Embedding of `Database::create_column_family` (src/tidesdb.rs lines
133-143): `CString::new(name)` fails with `Error::Nul` on an interior NUL
byte, otherwise the status of `tidesdb_create_column_family` (a function
`c_create` of the name) is checked. -/
def Database.create_column_family (c_create : List Nat → Int) (name : List Nat) :
    Option (Except Error Unit) :=
  if name.contains 0 then some (.error .Nul)
  else check_status (c_create name)

/-- Embedding of `Database::get_column_family` (src/tidesdb.rs lines
122-131): `CString::new(name)` fails with `Error::Nul` on an interior NUL
byte; otherwise `tidesdb_get_column_family` (modelled by `lookup`, where
`none` is the null pointer) decides between `Err(Error::NotFound)` and
`Ok(handle)`.  This wrapper never calls `Error::from_code`. -/
def Database.get_column_family (lookup : List Nat → Option Nat) (name : List Nat) :
    Except Error Nat :=
  if name.contains 0 then .error .Nul
  else
    match lookup name with
    | none => .error .NotFound
    | some h => .ok h

/-- Embedding of `Database::drop_column_family` (src/tidesdb.rs lines
172-181). -/
def Database.drop_column_family (c_drop : List Nat → Int) (name : List Nat) :
    Option (Except Error Unit) :=
  if name.contains 0 then some (.error .Nul)
  else check_status (c_drop name)

/-- Embedding of `Database::list_column_families` (src/tidesdb.rs lines
145-170) as a function of the status and the name list produced by the C
call. -/
def Database.list_column_families (status : Int) (names : List (List Nat)) :
    Option (Except Error (List (List Nat))) :=
  if status ≠ TDB_SUCCESS then (Error.from_code status).map Except.error
  else some (.ok names)

/-- Embedding of `Database::begin_transaction_with_isolation` (src/tidesdb.rs
lines 187-203): the isolation level is passed to
`tidesdb_txn_begin_with_isolation` (modelled by `c_begin`), and the status is
checked; `Unit` stands for the transaction handle. -/
def Database.begin_transaction_with_isolation (c_begin : IsolationLevel → Int)
    (iso : IsolationLevel) : Option (Except Error Unit) :=
  check_status (c_begin iso)

/-- Embedding of `Database::begin_transaction` (src/tidesdb.rs lines
183-185): it delegates to `begin_transaction_with_isolation` with
`IsolationLevel::READ_COMMITTED`. -/
def Database.begin_transaction (c_begin : IsolationLevel → Int) :
    Option (Except Error Unit) :=
  Database.begin_transaction_with_isolation c_begin .READ_COMMITTED

/-- The two-complement value of a Rust `u64` reinterpreted by `as i64`
(src/tidesdb.rs line 330, `ttl as i64`). -/
def u64_as_i64 (t : Nat) : Int :=
  if t % 2 ^ 64 < 2 ^ 63 then ((t % 2 ^ 64 : Nat) : Int)
  else ((t % 2 ^ 64 : Nat) : Int) - 2 ^ 64

/-- Embedding of `Transaction::put` (src/tidesdb.rs lines 295-313):
`tidesdb_txn_put` (modelled by `c_put`, a function of key, value and ttl to a
status) is invoked with the literal ttl `0`, and the status is checked. -/
def Transaction.put (c_put : List Nat → List Nat → Int → Int)
    (key value : List Nat) : Option (Except Error Unit) :=
  check_status (c_put key value 0)

/-- Embedding of `Transaction::put_with_ttl` (src/tidesdb.rs lines 315-339):
`tidesdb_txn_put` is invoked with `ttl as i64`, and the status is checked. -/
def Transaction.put_with_ttl (c_put : List Nat → List Nat → Int → Int)
    (key value : List Nat) (ttl : Nat) : Option (Except Error Unit) :=
  check_status (c_put key value (u64_as_i64 ttl))

/-- Embedding of `Transaction::get` (src/tidesdb.rs lines 341-366) as a
function of the status and the value buffer produced by `tidesdb_txn_get`:
status `TDB_ERR_NOT_FOUND` is checked first and yields `Ok(None)`, any other
non-success status yields `Err(Error::from_code(status))`, and success yields
`Ok(Some(value))`. -/
def Transaction.get (status : Int) (value : List Nat) :
    Option (Except Error (Option (List Nat))) :=
  if status = TDB_ERR_NOT_FOUND then some (.ok none)
  else if status ≠ TDB_SUCCESS then (Error.from_code status).map Except.error
  else some (.ok (some value))

/-- Embedding of `Transaction::delete` (src/tidesdb.rs lines 368-377). -/
def Transaction.delete (c_delete : List Nat → Int) (key : List Nat) :
    Option (Except Error Unit) :=
  check_status (c_delete key)

/-- Embedding of `Transaction::commit` (src/tidesdb.rs lines 379-388); the
`committed` flag only gates the `Drop` impl and is not observable through the
result. -/
def Transaction.commit (status : Int) : Option (Except Error Unit) :=
  check_status status

/-- Embedding of `Transaction::rollback` (src/tidesdb.rs lines 390-398). -/
def Transaction.rollback (status : Int) : Option (Except Error Unit) :=
  check_status status

/-- Embedding of `Transaction::savepoint` (src/tidesdb.rs lines 400-409). -/
def Transaction.savepoint (c_sp : List Nat → Int) (name : List Nat) :
    Option (Except Error Unit) :=
  if name.contains 0 then some (.error .Nul)
  else check_status (c_sp name)

/-- Embedding of `Transaction::rollback_to_savepoint` (src/tidesdb.rs lines
411-420), as a function of the status the C call returns for the name. -/
def Transaction.rollback_to_savepoint (c_sp : List Nat → Int) (name : List Nat) :
    Option (Except Error Unit) :=
  if name.contains 0 then some (.error .Nul)
  else check_status (c_sp name)

/-- Embedding of `Transaction::release_savepoint` (src/tidesdb.rs lines
422-431). -/
def Transaction.release_savepoint (c_sp : List Nat → Int) (name : List Nat) :
    Option (Except Error Unit) :=
  if name.contains 0 then some (.error .Nul)
  else check_status (c_sp name)

/-- Embedding of `ColumnFamily::compact` (src/tidesdb.rs lines 231-239). -/
def ColumnFamily.compact (status : Int) : Option (Except Error Unit) :=
  check_status status

/-- Embedding of `ColumnFamily::flush` (src/tidesdb.rs lines 241-249). -/
def ColumnFamily.flush (status : Int) : Option (Except Error Unit) :=
  check_status status

/-- Modelled from the spec: a buffered write-set entry of the transaction
manager (src/src does not contain the C engine; spec section 4.8: writes are
buffered in the transaction's write set as an ordered log of put/delete).  A
put carries the absolute expiry stamped at write time when a TTL was given
(`none` for a plain put). -/
inductive WriteOp where
  | put (key value : List Nat) (expiry : Option Nat)
  | del (key : List Nat)
deriving DecidableEq, Repr

/-- The key a write-set entry addresses. -/
def WriteOp.key : WriteOp → List Nat
  | .put k _ _ => k
  | .del k => k

/-- Modelled from the spec: the last write a transaction's write-set log
holds for a key (spec 4.8: later writes in the same transaction with the
same key collapse to the last write). -/
def lastWrite (k : List Nat) : List WriteOp → Option WriteOp
  | [] => none
  | w :: rest =>
    match lastWrite k rest with
    | some w2 => some w2
    | none => if w.key = k then some w else none

/-- Whether the write-set log holds any write for key `k`. -/
def hasWriteTo (k : List Nat) (ws : List WriteOp) : Bool :=
  ws.any (fun w => w.key = k)

/-- Modelled from the spec: collapse a write-set log to one entry per key,
keeping the last write for each key (spec 4.8). -/
def collapse : List WriteOp → List WriteOp
  | [] => []
  | w :: rest => if hasWriteTo w.key rest then collapse rest else w :: collapse rest

/-- Modelled from the spec: a record version of the data model (spec section
3: key, value or tombstone, sequence, optional absolute expiry). -/
structure Version where
  key : List Nat
  value : Option (List Nat)
  seq : Nat
  expiry : Option Nat
deriving DecidableEq, Repr

/-- Modelled from the spec: the record version a committed write-set entry
produces at the commit sequence `s` (spec 4.8; a delete becomes a
tombstone). -/
def WriteOp.toVersion (s : Nat) : WriteOp → Version
  | .put k v e => ⟨k, some v, s, e⟩
  | .del k => ⟨k, none, s, none⟩

/-- Pick the newer of two optional visible versions; the right argument wins
a sequence tie (it stands for the later part of the store). -/
def mergeVis : Option Version → Option Version → Option Version
  | none, r => r
  | some v, none => some v
  | some v, some w => if v.seq ≤ w.seq then some w else some v

/-- Modelled from the spec: the visible version of key `k` under snapshot
sequence `snap` (spec 4.8: a version with sequence ≤ snapshot and not
superseded by another version ≤ snapshot is the visible one). -/
def visibleVersion (k : List Nat) (snap : Nat) : List Version → Option Version
  | [] => none
  | v :: rest =>
    if v.key = k ∧ v.seq ≤ snap then mergeVis (some v) (visibleVersion k snap rest)
    else visibleVersion k snap rest

/-- Modelled from the spec: whether a version's stamped expiry has passed at
time `now` (spec 4.8: a version with a past expiry is treated as absent on
read). -/
def Version.expired (v : Version) (now : Nat) : Bool :=
  match v.expiry with
  | none => false
  | some e => e ≤ now

/-- Modelled from the spec: the value a read of key `k` observes in a column
family's version store under snapshot `snap` at time `now`: the visible
version's value, with tombstones and expired versions read as absent. -/
def storeGet (vs : List Version) (k : List Nat) (snap now : Nat) :
    Option (List Nat) :=
  match visibleVersion k snap vs with
  | none => none
  | some v => if v.expired now then none else v.value

/-- Modelled from the spec: the state a transaction owns (spec section 3):
the ordered write-set log and the savepoint stack of (name, write-set index
at creation) pairs, most recent first. -/
structure TxnState where
  writeLog : List WriteOp
  savepoints : List (List Nat × Nat)
deriving DecidableEq, Repr

/-- Modelled from the spec: `put`/`delete` inside a transaction only append
to the write-set log; the column family's version store is not an input or
output of buffering (spec 4.8: writes are buffered, not applied to the
memtable until commit). -/
def TxnState.buffer (t : TxnState) (w : WriteOp) : TxnState :=
  ⟨t.writeLog ++ [w], t.savepoints⟩

/-- Modelled from the spec: run a list of buffered writes against an engine
state; each step leaves the version store untouched and grows only the
transaction's write set. -/
def runBuffered (vs : List Version) (t : TxnState) :
    List WriteOp → List Version × TxnState
  | [] => (vs, t)
  | w :: rest => runBuffered vs (t.buffer w) rest

/-- Modelled from the spec: write-write conflict detection against committed
versions newer than the snapshot (spec 4.8, Snapshot/Serializable rows of the
isolation table). -/
def wwConflict (vs : List Version) (snap : Nat) (ws : List WriteOp) : Bool :=
  ws.any (fun w => vs.any (fun v => v.key = w.key ∧ snap < v.seq))

/-- Modelled from the spec: commit applies the collapsed write set to the
version store at the newly allocated sequence `s` (spec 4.8). -/
def commitApply (vs : List Version) (ws : List WriteOp) (s : Nat) : List Version :=
  vs ++ (collapse ws).map (WriteOp.toVersion s)

/-- Modelled from the spec: commit of a transaction with snapshot `snap` at
fresh sequence `s`; when the isolation level checks write conflicts (`chk`)
and one is found, commit fails with a conflict error and has no effect,
otherwise the write set is applied atomically (spec 4.8). -/
def engineCommit (vs : List Version) (t : TxnState) (snap s : Nat) (chk : Bool) :
    Except Error (List Version) :=
  if chk ∧ wwConflict vs snap t.writeLog then .error .Conflict
  else .ok (commitApply vs t.writeLog s)

/-- Modelled from the spec: the version store the engine holds after a commit
attempt — unchanged when commit failed (spec 4.8: rollback or failed commit
discards the entire write set). -/
def commitOutcome (vs : List Version) (t : TxnState) (snap s : Nat) (chk : Bool) :
    List Version :=
  match engineCommit vs t snap s chk with
  | .error _ => vs
  | .ok vs2 => vs2

/-- Modelled from the spec: rollback discards the transaction's write set and
leaves the version store as it was (spec 4.8). -/
def engineRollback (vs : List Version) (_t : TxnState) : List Version := vs

/-- Modelled from the spec: look a savepoint name up on the active stack,
returning its recorded write-set index and the stack from that entry down
(spec section 3: rollback-to pops all savepoints created after the named
one). -/
def spFind (name : List Nat) : List (List Nat × Nat) → Option (Nat × List (List Nat × Nat))
  | [] => none
  | p :: rest => if p.1 = name then some (p.2, p :: rest) else spFind name rest

/-- Modelled from the spec: the status `tidesdb_txn_rollback_to_savepoint`
reports and the resulting transaction state: an unknown name fails with
not-found; a known name truncates the write-set log to the recorded index and
pops the savepoints created after it (spec section 3). -/
def spRollbackTo (t : TxnState) (name : List Nat) : Int × TxnState :=
  match spFind name t.savepoints with
  | none => (TDB_ERR_NOT_FOUND, t)
  | some (idx, remaining) => (TDB_SUCCESS, ⟨t.writeLog.take idx, remaining⟩)

/-- Modelled from the spec: the status `tidesdb_txn_release_savepoint`
reports and the resulting transaction state: an unknown name fails with
not-found; a known name has only its marker removed, buffered writes stay
(spec section 3). -/
def spRelease (t : TxnState) (name : List Nat) : Int × TxnState :=
  if t.savepoints.any (fun p => p.1 = name) then
    (TDB_SUCCESS, ⟨t.writeLog, t.savepoints.filter (fun p => p.1 ≠ name)⟩)
  else (TDB_ERR_NOT_FOUND, t)

/-- The fields of `tidesdb_column_family_config_t` (src/ffi.rs lines 62-88),
in declaration order.  C pointer and function-pointer fields are opaque
numbers; the two floating-point fields keep their payload type. -/
structure ColumnFamilyConfig where
  write_buffer_size : Nat
  level_size_ratio : Nat
  min_levels : Int
  dividing_level_offset : Int
  klog_value_threshold : Nat
  compression_algorithm : CompressionAlgorithm
  enable_bloom_filter : Int
  bloom_fpr : Float
  enable_block_indexes : Int
  index_sample_ratio : Int
  block_index_prefix_len : Int
  sync_mode : Int
  sync_interval_us : Nat
  comparator_name : List Int
  comparator_ctx_str : List Int
  comparator_fn_cached : Option Nat
  comparator_ctx_cached : Nat
  skip_list_max_level : Int
  skip_list_probability : Float
  default_isolation_level : IsolationLevel
  min_disk_space : Nat
  l1_file_count_trigger : Int
  l0_queue_stall_threshold : Int

/-- Embedding of `ColumnFamilyConfig::with_ttl` (src/tidesdb.rs lines
275-278): it assigns `ttl as usize` to the `klog_value_threshold` field of
the inner C config and touches nothing else.  `ttl` models a `u64` and
`usize` is 64-bit on the crate's targets, so the cast is reduction modulo
2^64. -/
def ColumnFamilyConfig.with_ttl (c : ColumnFamilyConfig) (ttl : Nat) :
    ColumnFamilyConfig :=
  { c with klog_value_threshold := ttl % 2 ^ 64 }

theorem from_code_isSome (code : Int) (h : code ≠ 0) :
    (Error.from_code code).isSome = true := by
  unfold Error.from_code
  rw [if_neg h]
  repeat first
    | rfl
    | (split
       next => rfl)

theorem from_code_exists (code : Int) (h : code ≠ 0) :
    ∃ e, Error.from_code code = some e := by
  have := from_code_isSome code h
  exact Option.isSome_iff_exists.mp this

theorem check_status_isSome (status : Int) : (check_status status).isSome = true := by
  unfold check_status
  by_cases h : status = TDB_SUCCESS
  · simp [h]
  · have h0 : status ≠ 0 := by simpa [TDB_SUCCESS] using h
    obtain ⟨e, he⟩ := from_code_exists status h0
    simp [h, he]

/-- C4: `Error::from_code` maps each C status code in -10..-1 to its own
error kind as the spec taxonomy lists them, maps every other nonzero code to
`Unknown(code)`, and is injective on -10..-1. -/
theorem from_code_taxonomy :
    Error.from_code TDB_ERR_MEMORY = some .Memory ∧
    Error.from_code TDB_ERR_INVALID_ARGS = some .InvalidArgs ∧
    Error.from_code TDB_ERR_NOT_FOUND = some .NotFound ∧
    Error.from_code TDB_ERR_IO = some .Io ∧
    Error.from_code TDB_ERR_CORRUPTION = some .Corruption ∧
    Error.from_code TDB_ERR_EXISTS = some .Exists ∧
    Error.from_code TDB_ERR_CONFLICT = some .Conflict ∧
    Error.from_code TDB_ERR_TOO_LARGE = some .TooLarge ∧
    Error.from_code TDB_ERR_MEMORY_LIMIT = some .MemoryLimit ∧
    Error.from_code TDB_ERR_INVALID_DB = some .InvalidDb ∧
    (∀ c : Int, c ≠ 0 → (c < -10 ∨ -1 < c) → Error.from_code c = some (.Unknown c)) ∧
    (∀ a b : Int, -10 ≤ a → a ≤ -1 → -10 ≤ b → b ≤ -1 →
      Error.from_code a = Error.from_code b → a = b) := by
  refine ⟨by decide, by decide, by decide, by decide, by decide, by decide,
    by decide, by decide, by decide, by decide, ?_, ?_⟩
  · intro c hc hrange
    have h1 : ¬(c = -1) := by omega
    have h2 : ¬(c = -2) := by omega
    have h3 : ¬(c = -3) := by omega
    have h4 : ¬(c = -4) := by omega
    have h5 : ¬(c = -5) := by omega
    have h6 : ¬(c = -6) := by omega
    have h7 : ¬(c = -7) := by omega
    have h8 : ¬(c = -8) := by omega
    have h9 : ¬(c = -9) := by omega
    have h10 : ¬(c = -10) := by omega
    simp [Error.from_code, hc, h1, h2, h3, h4, h5, h6, h7, h8, h9, h10]
  · intro a b ha1 ha2 hb1 hb2
    interval_cases a <;> interval_cases b <;> decide

/-- Closed instance of the `Unknown` clause of C4 at code -11. -/
theorem from_code_taxonomy_witness :
    Error.from_code (-11) = some (.Unknown (-11)) :=
  from_code_taxonomy.2.2.2.2.2.2.2.2.2.2.1 (-11) (by decide) (by decide)

/-- C3: `Transaction::get` surfaces status -3 (TDB_ERR_NOT_FOUND) as
`Ok(None)`, status 0 (TDB_SUCCESS) as `Ok(Some(value))`, and every other
status as an `Err`; an absent key is never surfaced as an `Err`. -/
theorem txn_get_status_classification (status : Int) (value : List Nat) :
    (Transaction.get status value = some (.ok none) ↔ status = TDB_ERR_NOT_FOUND) ∧
    (Transaction.get status value = some (.ok (some value)) ↔ status = TDB_SUCCESS) ∧
    (status ≠ TDB_SUCCESS → status ≠ TDB_ERR_NOT_FOUND →
      ∃ e, Transaction.get status value = some (.error e)) := by
  by_cases h3 : status = TDB_ERR_NOT_FOUND
  · refine ⟨?_, ?_, ?_⟩
    · simp [Transaction.get, h3]
    · rw [h3]
      norm_num [Transaction.get, TDB_ERR_NOT_FOUND, TDB_SUCCESS]
      simp
    · intro _ hne
      exact absurd h3 hne
  · by_cases h0 : status = TDB_SUCCESS
    · have hne : status ≠ TDB_ERR_NOT_FOUND := h3
      refine ⟨?_, ?_, ?_⟩
      · rw [h0]
        norm_num [Transaction.get, TDB_ERR_NOT_FOUND, TDB_SUCCESS]
        simp
      · rw [h0]
        norm_num [Transaction.get, TDB_ERR_NOT_FOUND, TDB_SUCCESS]
      · intro hne0 _
        exact absurd h0 hne0
    · have hz : status ≠ 0 := by simpa [TDB_SUCCESS] using h0
      obtain ⟨e, he⟩ := from_code_exists status hz
      refine ⟨?_, ?_, ?_⟩
      · simp [Transaction.get, h3, h0, he]
      · simp [Transaction.get, h3, h0, he]
      · intro _ _
        exact ⟨e, by simp [Transaction.get, h3, h0, he]⟩

/-- Closed instance of the `Err` clause of C3 at status -7. -/
theorem txn_get_status_classification_witness :
    ∃ e, Transaction.get (-7) [1] = some (.error e) :=
  (txn_get_status_classification (-7) [1]).2.2 (by decide) (by decide)

/-- C7: `Transaction::put` is observably the same operation as
`Transaction::put_with_ttl` at ttl 0: both call `tidesdb_txn_put` with the
same key, value and a ttl of 0 and check the status identically. -/
theorem put_eq_put_with_ttl_zero (c_put : List Nat → List Nat → Int → Int)
    (key value : List Nat) :
    Transaction.put c_put key value = Transaction.put_with_ttl c_put key value 0 := by
  unfold Transaction.put Transaction.put_with_ttl
  norm_num [u64_as_i64]

/-- C8: `Error::from_code` has a panic branch at code 0, and no public
operation of the crate can reach it: every wrapper checks the status against
TDB_SUCCESS before calling `from_code`, so each operation produces a `some`
result (`none` models the panic) for every status sequence the C layer can
return. -/
theorem from_code_panic_unreachable :
    Error.from_code 0 = none ∧
    (∀ status, (Database.open_db status).isSome = true) ∧
    (∀ c name, (Database.create_column_family c name).isSome = true) ∧
    (∀ status names, (Database.list_column_families status names).isSome = true) ∧
    (∀ c name, (Database.drop_column_family c name).isSome = true) ∧
    (∀ c iso, (Database.begin_transaction_with_isolation c iso).isSome = true) ∧
    (∀ c, (Database.begin_transaction c).isSome = true) ∧
    (∀ c k v, (Transaction.put c k v).isSome = true) ∧
    (∀ c k v ttl, (Transaction.put_with_ttl c k v ttl).isSome = true) ∧
    (∀ status v, (Transaction.get status v).isSome = true) ∧
    (∀ c k, (Transaction.delete c k).isSome = true) ∧
    (∀ s, (Transaction.commit s).isSome = true) ∧
    (∀ s, (Transaction.rollback s).isSome = true) ∧
    (∀ c n, (Transaction.savepoint c n).isSome = true) ∧
    (∀ c n, (Transaction.rollback_to_savepoint c n).isSome = true) ∧
    (∀ c n, (Transaction.release_savepoint c n).isSome = true) ∧
    (∀ s, (ColumnFamily.compact s).isSome = true) ∧
    (∀ s, (ColumnFamily.flush s).isSome = true) := by
  have hname : ∀ (c : List Nat → Int) (name : List Nat),
      ((if name.contains 0 then some (Except.error Error.Nul)
        else check_status (c name)) : Option (Except Error Unit)).isSome = true := by
    intro c name
    by_cases h : (0 : Nat) ∈ name
    · simp [h]
    · simp [h, check_status_isSome]
  have hget : ∀ (status : Int) (v : List Nat),
      (Transaction.get status v).isSome = true := by
    intro status v
    unfold Transaction.get
    by_cases h3 : status = TDB_ERR_NOT_FOUND
    · simp [h3]
    · by_cases h0 : status = TDB_SUCCESS
      · rw [h0]
        norm_num [TDB_ERR_NOT_FOUND, TDB_SUCCESS]
      · have hz : status ≠ 0 := by simpa [TDB_SUCCESS] using h0
        obtain ⟨e, he⟩ := from_code_exists status hz
        simp [h3, h0, he]
  have hlist : ∀ (status : Int) (names : List (List Nat)),
      (Database.list_column_families status names).isSome = true := by
    intro status names
    unfold Database.list_column_families
    by_cases h0 : status = TDB_SUCCESS
    · simp [h0]
    · have hz : status ≠ 0 := by simpa [TDB_SUCCESS] using h0
      obtain ⟨e, he⟩ := from_code_exists status hz
      simp [h0, he]
  refine ⟨by decide,
    fun status => check_status_isSome status,
    fun c name => hname c name,
    hlist,
    fun c name => hname c name,
    fun c iso => check_status_isSome (c iso),
    fun c => check_status_isSome (c .READ_COMMITTED),
    fun c k v => check_status_isSome (c k v 0),
    fun c k v ttl => check_status_isSome (c k v (u64_as_i64 ttl)),
    hget,
    fun c k => check_status_isSome (c k),
    fun s => check_status_isSome s,
    fun s => check_status_isSome s,
    fun c n => hname c n,
    fun c n => hname c n,
    fun c n => hname c n,
    fun s => check_status_isSome s,
    fun s => check_status_isSome s⟩

/-- C9: `Database::begin_transaction` is exactly
`begin_transaction_with_isolation` at `IsolationLevel::READ_COMMITTED`, and
its result depends on the C layer only through the status returned for
Read-Committed, so no other configured isolation level can influence it. -/
theorem begin_transaction_is_read_committed (c_begin : IsolationLevel → Int) :
    Database.begin_transaction c_begin =
      Database.begin_transaction_with_isolation c_begin .READ_COMMITTED ∧
    ∀ c2 : IsolationLevel → Int,
      c2 .READ_COMMITTED = c_begin .READ_COMMITTED →
      Database.begin_transaction c2 = Database.begin_transaction c_begin := by
  refine ⟨rfl, ?_⟩
  intro c2 h
  unfold Database.begin_transaction Database.begin_transaction_with_isolation
  rw [h]

/-- Closed instance of C9: a status function that fails every isolation
level except Read-Committed begins a transaction exactly like one that always
succeeds. -/
theorem begin_transaction_is_read_committed_witness :
    Database.begin_transaction
        (fun i => match i with | .READ_COMMITTED => (0 : Int) | _ => -7) =
      Database.begin_transaction (fun _ => (0 : Int)) :=
  (begin_transaction_is_read_committed (fun _ => (0 : Int))).2
    (fun i => match i with | .READ_COMMITTED => (0 : Int) | _ => -7) rfl

/-- C10: `ColumnFamilyConfig::with_ttl` assigns `ttl as usize` to the
`klog_value_threshold` field and leaves each of the other 22 fields of
`tidesdb_column_family_config_t` unchanged; the struct has no expiry-related
field, so per-record expiry is controlled only by the ttl argument of
`put_with_ttl`. -/
theorem with_ttl_only_klog_value_threshold (c : ColumnFamilyConfig) (ttl : Nat) :
    (c.with_ttl ttl).klog_value_threshold = ttl % 2 ^ 64 ∧
    (c.with_ttl ttl).write_buffer_size = c.write_buffer_size ∧
    (c.with_ttl ttl).level_size_ratio = c.level_size_ratio ∧
    (c.with_ttl ttl).min_levels = c.min_levels ∧
    (c.with_ttl ttl).dividing_level_offset = c.dividing_level_offset ∧
    (c.with_ttl ttl).compression_algorithm = c.compression_algorithm ∧
    (c.with_ttl ttl).enable_bloom_filter = c.enable_bloom_filter ∧
    (c.with_ttl ttl).bloom_fpr = c.bloom_fpr ∧
    (c.with_ttl ttl).enable_block_indexes = c.enable_block_indexes ∧
    (c.with_ttl ttl).index_sample_ratio = c.index_sample_ratio ∧
    (c.with_ttl ttl).block_index_prefix_len = c.block_index_prefix_len ∧
    (c.with_ttl ttl).sync_mode = c.sync_mode ∧
    (c.with_ttl ttl).sync_interval_us = c.sync_interval_us ∧
    (c.with_ttl ttl).comparator_name = c.comparator_name ∧
    (c.with_ttl ttl).comparator_ctx_str = c.comparator_ctx_str ∧
    (c.with_ttl ttl).comparator_fn_cached = c.comparator_fn_cached ∧
    (c.with_ttl ttl).comparator_ctx_cached = c.comparator_ctx_cached ∧
    (c.with_ttl ttl).skip_list_max_level = c.skip_list_max_level ∧
    (c.with_ttl ttl).skip_list_probability = c.skip_list_probability ∧
    (c.with_ttl ttl).default_isolation_level = c.default_isolation_level ∧
    (c.with_ttl ttl).min_disk_space = c.min_disk_space ∧
    (c.with_ttl ttl).l1_file_count_trigger = c.l1_file_count_trigger ∧
    (c.with_ttl ttl).l0_queue_stall_threshold = c.l0_queue_stall_threshold :=
  ⟨rfl, rfl, rfl, rfl, rfl, rfl, rfl, rfl, rfl, rfl, rfl, rfl, rfl, rfl, rfl,
    rfl, rfl, rfl, rfl, rfl, rfl, rfl, rfl⟩

/-- C5: for a column-family name free of interior NUL bytes (so the C lookup
is actually consulted), `Database::get_column_family` fails with
`Error::NotFound` exactly when the C lookup returns the null pointer, and
returns the looked-up handle otherwise. -/
theorem get_column_family_not_found_iff (lookup : List Nat → Option Nat)
    (name : List Nat) (hname : (0 : Nat) ∉ name) :
    (Database.get_column_family lookup name = .error .NotFound ↔ lookup name = none) ∧
    ∀ h, lookup name = some h → Database.get_column_family lookup name = .ok h := by
  unfold Database.get_column_family
  constructor
  · cases hl : lookup name <;> simp [hname, hl]
  · intro h hl
    simp [hname, hl]

/-- Closed instance of C5: an empty database reports not-found for a known
good name, and a singleton lookup returns its handle. -/
theorem get_column_family_not_found_iff_witness :
    Database.get_column_family (fun _ => none) [65] = .error .NotFound :=
  ((get_column_family_not_found_iff (fun _ => none) [65] (by decide)).1).mpr rfl

theorem spFind_eq_none (name : List Nat) (sps : List (List Nat × Nat))
    (h : ∀ p ∈ sps, p.1 ≠ name) : spFind name sps = none := by
  induction sps with
  | nil => rfl
  | cons p rest ih =>
    unfold spFind
    rw [if_neg (h p (List.mem_cons_self p rest))]
    exact ih fun q hq => h q (List.mem_cons_of_mem p hq)

/-- C6: for a savepoint name absent from the transaction's active savepoint
stack, both `Transaction::rollback_to_savepoint` and
`Transaction::release_savepoint` surface an error — the modelled C layer
reports a nonzero status for the unknown name and the wrapper propagates it —
and neither returns Ok. -/
theorem unknown_savepoint_name_fails (t : TxnState) (name : List Nat)
    (hunknown : ∀ p ∈ t.savepoints, p.1 ≠ name) :
    (∃ e, Transaction.rollback_to_savepoint (fun n => (spRollbackTo t n).1) name
        = some (.error e)) ∧
    (∃ e, Transaction.release_savepoint (fun n => (spRelease t n).1) name
        = some (.error e)) := by
  have hfind : spFind name t.savepoints = none := spFind_eq_none name t.savepoints hunknown
  have hany : (t.savepoints.any fun p => p.1 = name) = false := by
    rw [List.any_eq_false]
    intro p hp
    simp [hunknown p hp]
  by_cases hnul : (0 : Nat) ∈ name
  · constructor
    · exact ⟨.Nul, by simp [Transaction.rollback_to_savepoint, hnul]⟩
    · exact ⟨.Nul, by simp [Transaction.release_savepoint, hnul]⟩
  · constructor
    · refine ⟨.NotFound, ?_⟩
      simp only [Transaction.rollback_to_savepoint, spRollbackTo, hfind]
      norm_num [hnul, check_status, TDB_SUCCESS, TDB_ERR_NOT_FOUND, Error.from_code]
    · refine ⟨.NotFound, ?_⟩
      simp only [Transaction.release_savepoint, spRelease, hany]
      norm_num [hnul, check_status, TDB_SUCCESS, TDB_ERR_NOT_FOUND, Error.from_code]

/-- Closed instance of C6: a transaction with no savepoints rejects both
operations for a concrete name. -/
theorem unknown_savepoint_name_fails_witness :
    (∃ e, Transaction.rollback_to_savepoint
        (fun n => (spRollbackTo ⟨[], []⟩ n).1) [65] = some (.error e)) ∧
    (∃ e, Transaction.release_savepoint
        (fun n => (spRelease ⟨[], []⟩ n).1) [65] = some (.error e)) :=
  unknown_savepoint_name_fails ⟨[], []⟩ [65] (by simp)

/-- C2: buffered writes of a transaction are never visible outside it: the
version store survives any run of buffered put/delete operations unchanged,
rollback leaves every read of every key exactly as before the transaction,
and a commit that returns an error likewise leaves every key — one written
only inside the transaction still reads as absent, one it overwrote retains
its prior value. -/
theorem rollback_or_failed_commit_has_no_effect (vs : List Version) (t : TxnState)
    (snap s : Nat) (chk : Bool) :
    (∀ ops, (runBuffered vs t ops).1 = vs) ∧
    (∀ k snap2 now, storeGet (engineRollback vs t) k snap2 now = storeGet vs k snap2 now) ∧
    (∀ e, engineCommit vs t snap s chk = .error e →
      ∀ k snap2 now,
        storeGet (commitOutcome vs t snap s chk) k snap2 now = storeGet vs k snap2 now) := by
  refine ⟨?_, fun k snap2 now => rfl, ?_⟩
  · intro ops
    induction ops generalizing t with
    | nil => rfl
    | cons w rest ih => exact ih (t.buffer w)
  · intro e he k snap2 now
    unfold commitOutcome
    rw [he]

/-- Closed instance of C2: a write-write conflict fails the commit and the
overwritten key keeps its prior value. -/
theorem rollback_or_failed_commit_has_no_effect_witness :
    storeGet
        (commitOutcome [⟨[1], some [2], 5, none⟩] ⟨[.put [1] [3] none], []⟩ 0 6 true)
        [1] 10 0
      = storeGet [⟨[1], some [2], 5, none⟩] [1] 10 0 :=
  (rollback_or_failed_commit_has_no_effect
      [⟨[1], some [2], 5, none⟩] ⟨[.put [1] [3] none], []⟩ 0 6 true).2.2
    .Conflict (by rfl) [1] 10 0

theorem toVersion_key (s : Nat) (w : WriteOp) : (w.toVersion s).key = w.key := by
  cases w <;> rfl

theorem toVersion_seq (s : Nat) (w : WriteOp) : (w.toVersion s).seq = s := by
  cases w <;> rfl

theorem hasWriteTo_false_lastWrite (k : List Nat) (ws : List WriteOp)
    (h : hasWriteTo k ws = false) : lastWrite k ws = none := by
  induction ws with
  | nil => rfl
  | cons w rest ih =>
    rw [hasWriteTo, List.any_cons, Bool.or_eq_false_iff] at h
    unfold lastWrite
    rw [ih h.2]
    rw [if_neg (by simpa using h.1)]

theorem lastWrite_some_hasWriteTo (k : List Nat) (ws : List WriteOp) (w : WriteOp)
    (h : lastWrite k ws = some w) : hasWriteTo k ws = true := by
  by_contra hf
  have := hasWriteTo_false_lastWrite k ws (by simpa using hf)
  rw [this] at h
  exact absurd h (by simp)

theorem lastWrite_none_hasWriteTo (k : List Nat) (ws : List WriteOp)
    (h : lastWrite k ws = none) : hasWriteTo k ws = false := by
  induction ws with
  | nil => rfl
  | cons w rest ih =>
    unfold lastWrite at h
    cases hr : lastWrite k rest with
    | some w2 =>
      rw [hr] at h
      exact absurd h (by simp)
    | none =>
      rw [hr] at h
      have hk : ¬(w.key = k) := by
        by_contra hk
        rw [if_pos hk] at h
        exact absurd h (by simp)
      rw [hasWriteTo, List.any_cons, Bool.or_eq_false_iff]
      exact ⟨by simpa using hk, ih hr⟩

theorem collapse_subset (ws : List WriteOp) : ∀ w ∈ collapse ws, w ∈ ws := by
  induction ws with
  | nil =>
    intro w hw
    exact absurd hw (List.not_mem_nil w)
  | cons w0 rest ih =>
    intro w hw
    unfold collapse at hw
    by_cases h : hasWriteTo w0.key rest = true
    · rw [if_pos h] at hw
      exact List.mem_cons_of_mem w0 (ih w hw)
    · rw [if_neg h] at hw
      rcases List.mem_cons.mp hw with h1 | h2
      · rw [h1]
        exact List.mem_cons_self w0 rest
      · exact List.mem_cons_of_mem w0 (ih w h2)

theorem lastWrite_collapse (k : List Nat) (ws : List WriteOp) (w : WriteOp)
    (h : lastWrite k ws = some w) :
    w ∈ collapse ws ∧ ∀ w2 ∈ collapse ws, w2.key = k → w2 = w := by
  induction ws with
  | nil => exact absurd h (by simp [lastWrite])
  | cons w0 rest ih =>
    unfold lastWrite at h
    unfold collapse
    by_cases hc : hasWriteTo w0.key rest = true
    · rw [if_pos hc]
      cases hr : lastWrite k rest with
      | some w2 =>
        rw [hr] at h
        injection h with h
        subst h
        exact ih hr
      | none =>
        rw [hr] at h
        by_cases hk : w0.key = k
        · exfalso
          have hfalse := lastWrite_none_hasWriteTo k rest hr
          rw [hk] at hc
          rw [hfalse] at hc
          exact absurd hc (by simp)
        · rw [if_neg hk] at h
          exact absurd h (by simp)
    · rw [if_neg hc]
      cases hr : lastWrite k rest with
      | some w2 =>
        rw [hr] at h
        injection h with h
        subst h
        obtain ⟨hm, hu⟩ := ih hr
        refine ⟨List.mem_cons_of_mem w0 hm, ?_⟩
        intro w2 hw2 hkey
        rcases List.mem_cons.mp hw2 with h1 | h2
        · exfalso
          subst h1
          have ht : hasWriteTo k rest = true := lastWrite_some_hasWriteTo k rest _ hr
          rw [← hkey] at ht
          rw [ht] at hc
          exact absurd rfl hc
        · exact hu w2 h2 hkey
      | none =>
        rw [hr] at h
        by_cases hk : w0.key = k
        · rw [if_pos hk] at h
          injection h with h
          subst h
          refine ⟨List.mem_cons_self w0 _, ?_⟩
          intro w2 hw2 hkey
          rcases List.mem_cons.mp hw2 with h1 | h2
          · exact h1
          · exfalso
            have hws : w2 ∈ rest := collapse_subset rest w2 h2
            have hfalse := lastWrite_none_hasWriteTo k rest hr
            rw [hasWriteTo, List.any_eq_false] at hfalse
            have := hfalse w2 hws
            simp at this
            exact this hkey
        · rw [if_neg hk] at h
          exact absurd h (by simp)

theorem visibleVersion_nil (k : List Nat) (snap : Nat) :
    visibleVersion k snap [] = none := rfl

theorem visibleVersion_cons (k : List Nat) (snap : Nat) (v : Version)
    (rest : List Version) :
    visibleVersion k snap (v :: rest) =
      if v.key = k ∧ v.seq ≤ snap then mergeVis (some v) (visibleVersion k snap rest)
      else visibleVersion k snap rest := rfl

theorem mergeVis_assoc (a b c : Option Version) :
    mergeVis (mergeVis a b) c = mergeVis a (mergeVis b c) := by
  cases a <;> cases b <;> cases c <;> simp only [mergeVis] <;>
    (try split_ifs) <;> simp only [mergeVis] <;>
    (try split_ifs) <;> first | rfl | omega

theorem visibleVersion_append (k : List Nat) (snap : Nat) (xs ys : List Version) :
    visibleVersion k snap (xs ++ ys) =
      mergeVis (visibleVersion k snap xs) (visibleVersion k snap ys) := by
  induction xs with
  | nil =>
    rw [List.nil_append, visibleVersion_nil]
    rfl
  | cons v xs ih =>
    rw [List.cons_append, visibleVersion_cons, visibleVersion_cons]
    by_cases h : v.key = k ∧ v.seq ≤ snap
    · rw [if_pos h, if_pos h, ih, mergeVis_assoc]
    · rw [if_neg h, if_neg h, ih]

theorem visibleVersion_mem (k : List Nat) (snap : Nat) (l : List Version)
    (w : Version) (h : visibleVersion k snap l = some w) :
    w ∈ l ∧ w.key = k ∧ w.seq ≤ snap := by
  induction l with
  | nil => exact absurd h (by simp [visibleVersion_nil])
  | cons v rest ih =>
    rw [visibleVersion_cons] at h
    by_cases hc : v.key = k ∧ v.seq ≤ snap
    · rw [if_pos hc] at h
      cases hr : visibleVersion k snap rest with
      | none =>
        rw [hr] at h
        simp only [mergeVis] at h
        injection h with h
        subst h
        exact ⟨List.mem_cons_self v rest, hc.1, hc.2⟩
      | some u =>
        rw [hr] at h
        simp only [mergeVis] at h
        by_cases hs : v.seq ≤ u.seq
        · rw [if_pos hs] at h
          injection h with h
          subst h
          obtain ⟨hm, hk2, hs2⟩ := ih hr
          exact ⟨List.mem_cons_of_mem v hm, hk2, hs2⟩
        · rw [if_neg hs] at h
          injection h with h
          subst h
          exact ⟨List.mem_cons_self v rest, hc.1, hc.2⟩
    · rw [if_neg hc] at h
      obtain ⟨hm, hk2, hs2⟩ := ih h
      exact ⟨List.mem_cons_of_mem v hm, hk2, hs2⟩

theorem visibleVersion_map_uniform (k : List Nat) (snap s : Nat) (w : WriteOp)
    (l : List WriteOp) (huniq : ∀ w2 ∈ l, w2.key = k → w2 = w) :
    visibleVersion k snap (l.map (WriteOp.toVersion s)) = none ∨
    visibleVersion k snap (l.map (WriteOp.toVersion s)) = some (w.toVersion s) := by
  induction l with
  | nil =>
    left
    rfl
  | cons w0 rest ih =>
    rw [List.map_cons, visibleVersion_cons]
    have ihr := ih fun w2 hw2 hk => huniq w2 (List.mem_cons_of_mem w0 hw2) hk
    by_cases hc : (w0.toVersion s).key = k ∧ (w0.toVersion s).seq ≤ snap
    · rw [if_pos hc]
      have hk0 : w0.key = k := by
        rw [← toVersion_key s w0]
        exact hc.1
      have hw0 : w0 = w := huniq w0 (List.mem_cons_self w0 rest) hk0
      subst hw0
      rcases ihr with hnone | hsome
      · rw [hnone]
        right
        rfl
      · rw [hsome]
        right
        simp only [mergeVis]
        rw [if_pos (le_refl _)]
    · rw [if_neg hc]
      exact ihr

theorem visibleVersion_map_lastWrite (k : List Nat) (snap s : Nat) (w : WriteOp)
    (l : List WriteOp) (hmem : w ∈ l) (hkey : w.key = k)
    (huniq : ∀ w2 ∈ l, w2.key = k → w2 = w) (hs : s ≤ snap) :
    visibleVersion k snap (l.map (WriteOp.toVersion s)) = some (w.toVersion s) := by
  induction l with
  | nil => exact absurd hmem (List.not_mem_nil w)
  | cons w0 rest ih =>
    rw [List.map_cons, visibleVersion_cons]
    by_cases hk0 : w0.key = k
    · have hw0 : w0 = w := huniq w0 (List.mem_cons_self w0 rest) hk0
      subst hw0
      rw [if_pos ⟨by rw [toVersion_key]; exact hk0, by rw [toVersion_seq]; exact hs⟩]
      rcases visibleVersion_map_uniform k snap s w0 rest
          (fun w2 hw2 hk => huniq w2 (List.mem_cons_of_mem w0 hw2) hk) with hnone | hsome
      · rw [hnone]
        rfl
      · rw [hsome]
        simp only [mergeVis]
        rw [if_pos (le_refl _)]
    · rw [if_neg fun hcond => hk0 (by rw [← toVersion_key s w0]; exact hcond.1)]
      have hww : w ∈ rest := by
        rcases List.mem_cons.mp hmem with h1 | h2
        · exfalso
          apply hk0
          rw [← h1]
          exact hkey
        · exact h2
      exact ih hww fun w2 hw2 hk => huniq w2 (List.mem_cons_of_mem w0 hw2) hk

/-- C1: a put that a transaction buffers as its final write to key `k` and
then commits successfully at a freshly allocated sequence `s` is returned by
every later read of `k` whose snapshot sequence is at least `s`, at any read
time (a plain put stamps no expiry). -/
theorem committed_put_is_visible (vs : List Version) (t : TxnState)
    (k v : List Nat) (snap0 s snap now : Nat) (chk : Bool) (vs2 : List Version)
    (hlast : lastWrite k t.writeLog = some (.put k v none))
    (hfresh : ∀ w ∈ vs, w.seq < s)
    (hcommit : engineCommit vs t snap0 s chk = .ok vs2)
    (hsnap : s ≤ snap) :
    storeGet vs2 k snap now = some v := by
  have hvs2 : vs2 = commitApply vs t.writeLog s := by
    unfold engineCommit at hcommit
    split at hcommit
    · exact absurd hcommit (by simp)
    · injection hcommit with h
      exact h.symm
  obtain ⟨hmem, huniq⟩ := lastWrite_collapse k t.writeLog (.put k v none) hlast
  have hkeyw : (WriteOp.put k v none).key = k := rfl
  have hvv : visibleVersion k snap (commitApply vs t.writeLog s)
      = some ((WriteOp.put k v none).toVersion s) := by
    unfold commitApply
    rw [visibleVersion_append]
    rw [visibleVersion_map_lastWrite k snap s (.put k v none) (collapse t.writeLog)
      hmem hkeyw huniq hsnap]
    cases hold : visibleVersion k snap vs with
    | none => rfl
    | some u =>
      obtain ⟨humem, _, _⟩ := visibleVersion_mem k snap vs u hold
      have hlt : u.seq < s := hfresh u humem
      simp only [mergeVis, toVersion_seq]
      rw [if_pos (Nat.le_of_lt hlt)]
  rw [hvs2]
  unfold storeGet
  rw [hvv]
  rfl

/-- Closed instance of C1: committing a single buffered put makes the value
readable at the commit sequence. -/
theorem committed_put_is_visible_witness :
    storeGet (commitApply [] [.put [1] [2] none] 1) [1] 1 0 = some [2] :=
  committed_put_is_visible [] ⟨[.put [1] [2] none], []⟩ [1] [2] 0 1 1 0 false
    (commitApply [] [.put [1] [2] none] 1) (by decide) (by simp) (by rfl) (by decide)
